import Mathlib

set_option maxRecDepth 100000

/-!
Verification development for the trunk-decoder P25 call decoder.

Shallow embedding of the C++ sources:
 - `src/p25_frame_parser.cc`  (frame reader, LDU2 encryption-sync extraction,
   Hamming(10,6) step)
 - `src/p25_des_decrypt.cc` / `src/p25_adp_decrypt.cc`  (keystream generators,
   per-codeword decrypt)
 - `src/p25_decoder.cc`  (decode pipeline, JSON sidecar)
 - `src/job_manager.cc` / `src/worker_pool.cc`  (job queue, workers)

Bytes are modelled as `Nat` (values kept below 256 by the operations that
matter); byte buffers as `List Nat`; C++ `std::string` values as `List Char`.
-/

/-! ## §1  Hamming(10,6) step of the LDU2 encryption-sync extractor -/

/-- `P25FrameParser::hamming_10_6_decode` (src/p25_frame_parser.cc:195-199).
The C++ body is `return (high << 2) | (low & 0x03);` with the comment
"just extract the data bits without error correction". -/
def hamming_10_6_decode (high low : Nat) : Nat :=
  (high <<< 2) ||| (low &&& 0x03)

/-- The call site (src/p25_frame_parser.cc:170) feeds a gathered 10-bit
codeword `cw` as `hamming_10_6_decode(cw >> 4, cw & 0x0f)`. -/
def hammingDecodeWord (cw : Nat) : Nat :=
  hamming_10_6_decode (cw >>> 4) (cw &&& 0x0f)

/-! ## §2  Per-codeword decryption (DES-OFB and ADP/RC4)

State of `P25DESDecrypt` (src/p25_des_decrypt.h): key map `d_keys`,
`d_keystream[224]`, `d_position`.  State of `P25ADPDecrypt`
(src/p25_adp_decrypt.h): key map `d_keys`, `d_mi[9]`, `d_keystream[469]`,
`d_position`.  The C++ `std::unordered_map<uint16_t, std::vector<uint8_t>>`
is modelled as an association list. -/

structure P25DESDecryptState where
  d_keys : List (Nat × List Nat)
  d_keystream : List Nat
  d_position : Nat
deriving Repr, DecidableEq

structure P25ADPDecryptState where
  d_keys : List (Nat × List Nat)
  d_mi : List Nat
  d_keystream : List Nat
  d_position : Nat
deriving Repr, DecidableEq

/-- The XOR loop shared by both `decrypt_imbe_codeword` bodies
(src/p25_des_decrypt.cc:63-67, src/p25_adp_decrypt.cc:65-69):
`for (j = 0; j < 11; ++j) if (offset + j < total) codeword[j] = ks[j+offset] ^ codeword[j];`
(the `j < codeword.size()` loop guard never fires because the caller has
already checked `codeword.size() >= 11`). -/
def xorCodeword (ks : List Nat) (total offset : Nat) (cw : List Nat) : List Nat :=
  (List.range 11).foldl
    (fun acc j =>
      if offset + j < total then acc.set j (ks.getD (offset + j) 0 ^^^ acc.getD j 0)
      else acc)
    cw

/-- `P25DESDecrypt::decrypt_imbe_codeword` (src/p25_des_decrypt.cc:46-70).
Returns (return value, updated object state, updated codeword buffer). -/
def P25DESDecrypt_decrypt_imbe_codeword (s : P25DESDecryptState)
    (codeword : List Nat) (is_ldu2 : Bool) :
    Bool × P25DESDecryptState × List Nat :=
  if codeword.length < 11 then (false, s, codeword)
  else
    let offset0 : Nat := 8
    let offset1 : Nat := if is_ldu2 then offset0 + 101 else offset0
    let offset : Nat := offset1 + s.d_position * 11 + 11 +
      (if s.d_position < 8 then 0 else 2)
    (true, { s with d_position := (s.d_position + 1) % 9 },
      xorCodeword s.d_keystream 224 offset codeword)

/-- `P25ADPDecrypt::decrypt_imbe_codeword` (src/p25_adp_decrypt.cc:47-72). -/
def P25ADPDecrypt_decrypt_imbe_codeword (s : P25ADPDecryptState)
    (codeword : List Nat) (is_ldu2 : Bool) :
    Bool × P25ADPDecryptState × List Nat :=
  if codeword.length < 11 then (false, s, codeword)
  else
    let offset0 : Nat := 0
    let offset1 : Nat := if is_ldu2 then offset0 + 101 else offset0
    let offset : Nat := offset1 + s.d_position * 11 + 267 +
      (if s.d_position < 8 then 0 else 2)
    (true, { s with d_position := (s.d_position + 1) % 9 },
      xorCodeword s.d_keystream 469 offset codeword)

/-! ### Characterisation of the XOR loop -/

theorem xorLoop_length (ks : List Nat) (total offset : Nat) :
    ∀ (js : List Nat) (cw : List Nat),
      (js.foldl
        (fun acc j =>
          if offset + j < total then acc.set j (ks.getD (offset + j) 0 ^^^ acc.getD j 0)
          else acc) cw).length = cw.length := by
  intro js
  induction js with
  | nil => intro cw; rfl
  | cons j js ih =>
      intro cw
      simp only [List.foldl_cons]
      rw [ih]
      by_cases h : offset + j < total
      · simp [h]
      · simp [h]

theorem xorCodeword_length (ks : List Nat) (total offset : Nat) (cw : List Nat) :
    (xorCodeword ks total offset cw).length = cw.length :=
  xorLoop_length ks total offset (List.range 11) cw

theorem xorLoop_getElem? (ks : List Nat) (total offset : Nat) :
    ∀ (n : Nat) (cw : List Nat) (i : Nat),
      ((List.range n).foldl
        (fun acc j =>
          if offset + j < total then acc.set j (ks.getD (offset + j) 0 ^^^ acc.getD j 0)
          else acc) cw)[i]? =
      if i < n ∧ offset + i < total then cw[i]?.map (fun b => ks.getD (offset + i) 0 ^^^ b)
      else cw[i]? := by
  intro n
  induction n with
  | zero =>
      intro cw i
      simp
  | succ n ih =>
      intro cw i
      rw [List.range_succ, List.foldl_append]
      set A := (List.range n).foldl
        (fun acc j =>
          if offset + j < total then acc.set j (ks.getD (offset + j) 0 ^^^ acc.getD j 0)
          else acc) cw with hA
      have hAlen : A.length = cw.length := xorLoop_length ks total offset _ cw
      simp only [List.foldl_cons, List.foldl_nil]
      by_cases hlt : offset + n < total
      · simp only [if_pos hlt]
        rw [List.getElem?_set]
        by_cases hin : n = i
        · subst hin
          simp only [if_pos rfl, hAlen]
          have hAn : A[n]? = cw[n]? := by
            rw [ih cw n]
            simp
          by_cases hnl : n < cw.length
          · have : A.getD n 0 = (cw[n]?).getD 0 := by
              rw [List.getD_eq_getElem?_getD, hAn]
            rw [if_pos hnl, this]
            have hcwn : cw[n]? = some cw[n] := List.getElem?_eq_getElem hnl
            simp [hcwn, hlt]
          · rw [if_neg hnl]
            have hcwn : cw[n]? = none := by
              simp [List.getElem?_eq_none_iff, Nat.le_of_not_lt hnl]
            simp [hcwn, hlt]
        · rw [if_neg hin, ih cw i]
          have : (i < n + 1 ∧ offset + i < total) ↔ (i < n ∧ offset + i < total) := by
            constructor
            · rintro ⟨h1, h2⟩
              exact ⟨Nat.lt_of_le_of_ne (Nat.le_of_lt_succ h1) (fun h => hin h.symm), h2⟩
            · rintro ⟨h1, h2⟩
              exact ⟨Nat.lt_succ_of_lt h1, h2⟩
          rw [if_congr this rfl rfl]
      · simp only [if_neg hlt]
        rw [ih cw i]
        by_cases hin : i = n
        · subst hin
          simp [hlt]
        · have : (i < n + 1 ∧ offset + i < total) ↔ (i < n ∧ offset + i < total) := by
            constructor
            · rintro ⟨h1, h2⟩
              exact ⟨Nat.lt_of_le_of_ne (Nat.le_of_lt_succ h1) hin, h2⟩
            · rintro ⟨h1, h2⟩
              exact ⟨Nat.lt_succ_of_lt h1, h2⟩
          rw [if_congr this rfl rfl]

theorem xorCodeword_getElem? (ks : List Nat) (total offset : Nat)
    (cw : List Nat) (i : Nat) :
    (xorCodeword ks total offset cw)[i]? =
      if i < 11 ∧ offset + i < total then cw[i]?.map (fun b => ks.getD (offset + i) 0 ^^^ b)
      else cw[i]? :=
  xorLoop_getElem? ks total offset 11 cw i

theorem xorCodeword_involution (ks : List Nat) (total offset : Nat) (cw : List Nat) :
    xorCodeword ks total offset (xorCodeword ks total offset cw) = cw := by
  have hlen : (xorCodeword ks total offset (xorCodeword ks total offset cw)).length
      = cw.length := by
    rw [xorCodeword_length, xorCodeword_length]
  apply List.ext_getElem?
  intro i
  rw [xorCodeword_getElem?, xorCodeword_getElem?]
  by_cases h : i < 11 ∧ offset + i < total
  · rw [if_pos h, if_pos h, Option.map_map]
    have : ∀ b : Nat, ks.getD (offset + i) 0 ^^^ (ks.getD (offset + i) 0 ^^^ b) = b := by
      intro b
      rw [← Nat.xor_assoc, Nat.xor_self, Nat.zero_xor]
    calc cw[i]?.map ((fun b => ks.getD (offset + i) 0 ^^^ b) ∘
          (fun b => ks.getD (offset + i) 0 ^^^ b))
        = cw[i]?.map id := by
          apply congrArg (fun f => Option.map f cw[i]?)
          funext b
          exact this b
      _ = cw[i]? := Option.map_id_fun ▸ rfl
  · rw [if_neg h, if_neg h]

/-! ## §3  `prepare` (key lookup, padding) -/

/-- Leading-zero padding of the stored key to `n` bytes
(src/p25_adp_decrypt.cc:36-39, src/p25_des_decrypt.cc:35-38): the C++ loop is
`for (i = 0; i < n && i < stored.size(); i++) out[n - stored.size() + i] = stored[i];`
over a zero-initialised array.  For stored keys longer than `n` that loop
writes out of bounds (undefined behaviour); those inputs are modelled as
truncation and are not relied on by any theorem below. -/
def padKeyTo (n : Nat) (stored : List Nat) : List Nat :=
  if stored.length ≤ n then List.replicate (n - stored.length) 0 ++ stored
  else stored.take n

/-- `P25DESDecrypt::prepare` (src/p25_des_decrypt.cc:23-44).  The DES-OFB
keystream derivation (`P25DESDecrypt::generate_keystream`,
src/p25_des_decrypt.cc:72-138) is passed as a parameter `gen`: the
key-not-found path returns before invoking it, and no claim in this
development depends on its output bytes. -/
def P25DESDecrypt_prepare (gen : List Nat → List Nat → List Nat)
    (s : P25DESDecryptState) (keyid : Nat) (mi : List Nat) :
    Bool × P25DESDecryptState :=
  match s.d_keys.lookup keyid with
  | none => (false, s)
  | some stored =>
      (true,
        { s with
            d_position := 0
            d_keystream := gen (padKeyTo 8 stored) mi })

/-! ## §4  Claim theorems C2, C3, C5 -/

/-- Claim C2 (code-bug evidence).  The received 10-bit word `0b0000000001` is
at Hamming distance 1 from the all-zero word, which is the valid
Hamming(10,6,3) encoding of the data word 0 (the zero word is a codeword of
every linear code).  A decoder that corrects single-bit errors must return 0
on it; `hamming_10_6_decode` as shipped returns 1.  (Error-free all-zero
input does decode to 0.) -/
theorem claim_C2_hamming_no_correction :
    hammingDecodeWord 0 = 0 ∧ hammingDecodeWord 1 = 1 ∧ (1 : Nat) ≠ 0 := by
  refine ⟨by decide, by decide, by decide⟩

/-- Claim C3: for an 11-byte-or-longer codeword, both decrypt routines
succeed, use keystream offset
`base_discard + (is_ldu2 ? 101 : 0) + position * 11 + intra_shift + (position < 8 ? 0 : 2)`
with `(base_discard, intra_shift) = (8, 11)` for DES-OFB (keystream length
224) and `(0, 267)` for ADP/RC4 (keystream length 469), XOR only the first
11 bytes (and leave bytes whose keystream index would reach past the buffer
untouched), and advance the position to `(position + 1) % 9 < 9`. -/
theorem claim_C3_decrypt_offset_policy
    (keys : List (Nat × List Nat)) (ksD ksA miA : List Nat) (p : Nat)
    (B : List Nat) (is_ldu2 : Bool) (j : Nat) (hB : 11 ≤ B.length) :
    ((P25DESDecrypt_decrypt_imbe_codeword ⟨keys, ksD, p⟩ B is_ldu2).1 = true ∧
     (P25DESDecrypt_decrypt_imbe_codeword ⟨keys, ksD, p⟩ B is_ldu2).2.1 =
       ⟨keys, ksD, (p + 1) % 9⟩ ∧
     (p + 1) % 9 < 9 ∧
     (P25DESDecrypt_decrypt_imbe_codeword ⟨keys, ksD, p⟩ B is_ldu2).2.2.length = B.length ∧
     (j < 11 → 8 + (if is_ldu2 then 101 else 0) + p * 11 + 11 + (if p < 8 then 0 else 2) + j < 224 →
       (P25DESDecrypt_decrypt_imbe_codeword ⟨keys, ksD, p⟩ B is_ldu2).2.2[j]? =
       B[j]?.map (fun b =>
         ksD.getD (8 + (if is_ldu2 then 101 else 0) + p * 11 + 11 + (if p < 8 then 0 else 2) + j) 0 ^^^ b)) ∧
     (j < 11 → 224 ≤ 8 + (if is_ldu2 then 101 else 0) + p * 11 + 11 + (if p < 8 then 0 else 2) + j →
       (P25DESDecrypt_decrypt_imbe_codeword ⟨keys, ksD, p⟩ B is_ldu2).2.2[j]? = B[j]?) ∧
     (11 ≤ j →
       (P25DESDecrypt_decrypt_imbe_codeword ⟨keys, ksD, p⟩ B is_ldu2).2.2[j]? = B[j]?)) ∧
    ((P25ADPDecrypt_decrypt_imbe_codeword ⟨keys, miA, ksA, p⟩ B is_ldu2).1 = true ∧
     (P25ADPDecrypt_decrypt_imbe_codeword ⟨keys, miA, ksA, p⟩ B is_ldu2).2.1 =
       ⟨keys, miA, ksA, (p + 1) % 9⟩ ∧
     (p + 1) % 9 < 9 ∧
     (P25ADPDecrypt_decrypt_imbe_codeword ⟨keys, miA, ksA, p⟩ B is_ldu2).2.2.length = B.length ∧
     (j < 11 → 0 + (if is_ldu2 then 101 else 0) + p * 11 + 267 + (if p < 8 then 0 else 2) + j < 469 →
       (P25ADPDecrypt_decrypt_imbe_codeword ⟨keys, miA, ksA, p⟩ B is_ldu2).2.2[j]? =
       B[j]?.map (fun b =>
         ksA.getD (0 + (if is_ldu2 then 101 else 0) + p * 11 + 267 + (if p < 8 then 0 else 2) + j) 0 ^^^ b)) ∧
     (j < 11 → 469 ≤ 0 + (if is_ldu2 then 101 else 0) + p * 11 + 267 + (if p < 8 then 0 else 2) + j →
       (P25ADPDecrypt_decrypt_imbe_codeword ⟨keys, miA, ksA, p⟩ B is_ldu2).2.2[j]? = B[j]?) ∧
     (11 ≤ j →
       (P25ADPDecrypt_decrypt_imbe_codeword ⟨keys, miA, ksA, p⟩ B is_ldu2).2.2[j]? = B[j]?)) := by
  have hnot : ¬ B.length < 11 := Nat.not_lt.mpr hB
  have hoffD : (if is_ldu2 then (8 : Nat) + 101 else 8) + p * 11 + 11 + (if p < 8 then 0 else 2) =
      8 + (if is_ldu2 then 101 else 0) + p * 11 + 11 + (if p < 8 then 0 else 2) := by
    cases is_ldu2 <;> simp
  have hoffA : (if is_ldu2 then (0 : Nat) + 101 else 0) + p * 11 + 267 + (if p < 8 then 0 else 2) =
      0 + (if is_ldu2 then 101 else 0) + p * 11 + 267 + (if p < 8 then 0 else 2) := by
    cases is_ldu2 <;> simp
  simp only [P25DESDecrypt_decrypt_imbe_codeword, P25ADPDecrypt_decrypt_imbe_codeword,
    if_neg hnot, hoffD, hoffA]
  refine ⟨⟨by trivial, by trivial, Nat.mod_lt _ (by decide), xorCodeword_length _ _ _ _, ?_, ?_, ?_⟩,
          ⟨by trivial, by trivial, Nat.mod_lt _ (by decide), xorCodeword_length _ _ _ _, ?_, ?_, ?_⟩⟩
  · intro hj hk
    rw [xorCodeword_getElem?, if_pos ⟨hj, hk⟩]
  · intro hj hk
    rw [xorCodeword_getElem?, if_neg]
    rintro ⟨-, h2⟩
    exact absurd h2 (Nat.not_lt.mpr hk)
  · intro hj
    rw [xorCodeword_getElem?, if_neg]
    rintro ⟨h1, -⟩
    exact absurd h1 (Nat.not_lt.mpr hj)
  · intro hj hk
    rw [xorCodeword_getElem?, if_pos ⟨hj, hk⟩]
  · intro hj hk
    rw [xorCodeword_getElem?, if_neg]
    rintro ⟨-, h2⟩
    exact absurd h2 (Nat.not_lt.mpr hk)
  · intro hj
    rw [xorCodeword_getElem?, if_neg]
    rintro ⟨h1, -⟩
    exact absurd h1 (Nat.not_lt.mpr hj)

/-- Witness for C3 at a concrete input: a 2-byte keystream prefix, position 2,
LDU2, byte 3 of an 11-byte buffer of sevens.  The DES offset is
8 + 101 + 22 + 11 + 0 = 142, the ADP offset is 0 + 101 + 22 + 267 + 0 = 390;
both are within their keystream bounds, and with the short keystream lists
the `getD` default 0 applies, so the byte is unchanged by the XOR. -/
theorem claim_C3_decrypt_offset_policy_witness :
    (P25DESDecrypt_decrypt_imbe_codeword ⟨[], [1, 2], 2⟩ (List.replicate 11 7) true).2.2[3]? =
      (List.replicate 11 7 : List Nat)[3]?.map (fun b => (0 : Nat) ^^^ b) ∧
    (P25ADPDecrypt_decrypt_imbe_codeword ⟨[], [], [1, 2], 2⟩ (List.replicate 11 7) true).2.2[3]? =
      (List.replicate 11 7 : List Nat)[3]?.map (fun b => (0 : Nat) ^^^ b) := by
  have h := claim_C3_decrypt_offset_policy [] [1, 2] [1, 2] [] 2
    (List.replicate 11 7) true 3 (by decide)
  refine ⟨?_, ?_⟩
  · have := h.1.2.2.2.2.1 (by decide) (by decide)
    simpa using this
  · have := h.2.2.2.2.2.1 (by decide) (by decide)
    simpa using this

/-- Claim C5: decrypting an 11-byte-or-longer buffer twice with the same
keystream, the same codeword position `p < 9` and the same LDU2 flag returns
the original buffer (XOR involution), for both DES-OFB and ADP/RC4. -/
theorem claim_C5_decrypt_involution
    (keys : List (Nat × List Nat)) (ksD ksA miA : List Nat) (p : Nat)
    (B : List Nat) (is_ldu2 : Bool) (hB : 11 ≤ B.length) (hp : p < 9) :
    (P25DESDecrypt_decrypt_imbe_codeword ⟨keys, ksD, p⟩
      (P25DESDecrypt_decrypt_imbe_codeword ⟨keys, ksD, p⟩ B is_ldu2).2.2 is_ldu2).2.2 = B ∧
    (P25ADPDecrypt_decrypt_imbe_codeword ⟨keys, miA, ksA, p⟩
      (P25ADPDecrypt_decrypt_imbe_codeword ⟨keys, miA, ksA, p⟩ B is_ldu2).2.2 is_ldu2).2.2 = B := by
  have hnot : ¬ B.length < 11 := Nat.not_lt.mpr hB
  constructor
  · have h1 : (P25DESDecrypt_decrypt_imbe_codeword ⟨keys, ksD, p⟩ B is_ldu2).2.2 =
        xorCodeword ksD 224
          ((if is_ldu2 then 8 + 101 else 8) + p * 11 + 11 + (if p < 8 then 0 else 2)) B := by
      simp only [P25DESDecrypt_decrypt_imbe_codeword, if_neg hnot]
    rw [h1]
    have hlen1 : ¬ (xorCodeword ksD 224
        ((if is_ldu2 then 8 + 101 else 8) + p * 11 + 11 + (if p < 8 then 0 else 2)) B).length < 11 := by
      rw [xorCodeword_length]; exact hnot
    simp only [P25DESDecrypt_decrypt_imbe_codeword, if_neg hlen1]
    exact xorCodeword_involution _ _ _ _
  · have h1 : (P25ADPDecrypt_decrypt_imbe_codeword ⟨keys, miA, ksA, p⟩ B is_ldu2).2.2 =
        xorCodeword ksA 469
          ((if is_ldu2 then 0 + 101 else 0) + p * 11 + 267 + (if p < 8 then 0 else 2)) B := by
      simp only [P25ADPDecrypt_decrypt_imbe_codeword, if_neg hnot]
    rw [h1]
    have hlen1 : ¬ (xorCodeword ksA 469
        ((if is_ldu2 then 0 + 101 else 0) + p * 11 + 267 + (if p < 8 then 0 else 2)) B).length < 11 := by
      rw [xorCodeword_length]; exact hnot
    simp only [P25ADPDecrypt_decrypt_imbe_codeword, if_neg hlen1]
    exact xorCodeword_involution _ _ _ _

/-- Witness for C5 on a concrete 11-byte buffer, keystream `[3, 1, 4, 1, 5]`,
position 4, LDU1. -/
theorem claim_C5_decrypt_involution_witness :
    (P25DESDecrypt_decrypt_imbe_codeword ⟨[], [3, 1, 4, 1, 5], 4⟩
      (P25DESDecrypt_decrypt_imbe_codeword ⟨[], [3, 1, 4, 1, 5], 4⟩
        [0, 1, 2, 3, 4, 5, 6, 7, 8, 9, 10] false).2.2 false).2.2 =
      [0, 1, 2, 3, 4, 5, 6, 7, 8, 9, 10] ∧
    (P25ADPDecrypt_decrypt_imbe_codeword ⟨[], [], [3, 1, 4, 1, 5], 4⟩
      (P25ADPDecrypt_decrypt_imbe_codeword ⟨[], [], [3, 1, 4, 1, 5], 4⟩
        [0, 1, 2, 3, 4, 5, 6, 7, 8, 9, 10] false).2.2 false).2.2 =
      [0, 1, 2, 3, 4, 5, 6, 7, 8, 9, 10] :=
  claim_C5_decrypt_involution [] [3, 1, 4, 1, 5] [3, 1, 4, 1, 5] [] 4
    [0, 1, 2, 3, 4, 5, 6, 7, 8, 9, 10] false (by decide) (by decide)

/-! ## §5  ADP/RC4 keystream generation -/

/-- `adp_swap` (src/p25_adp_decrypt.h:17-21). -/
def rc4swap (S : List Nat) (i j : Nat) : List Nat :=
  let si := S.getD i 0
  let sj := S.getD j 0
  (S.set i sj).set j si

/-- One iteration of the key-scheduling loop of
`P25ADPDecrypt::generate_keystream` (src/p25_adp_decrypt.cc:100-104):
`j = (j + S[i] + K[i]) & 0xFF; swap(S, i, j);` where `K` is the 256-byte
repeated-key array. -/
def adpKsaStep (K : List Nat) (Sj : List Nat × Nat) (i : Nat) : List Nat × Nat :=
  let j := (Sj.2 + Sj.1.getD i 0 + K.getD i 0) &&& 255
  (rc4swap Sj.1 i j, j)

/-- One iteration of the pseudo-random-generation loop of
`P25ADPDecrypt::generate_keystream` (src/p25_adp_decrypt.cc:107-113):
`i = (i+1) & 0xFF; j = (j + S[i]) & 0xFF; swap; out[k] = S[(S[i]+S[j]) & 0xFF];`
(state: S, i, j, emitted bytes so far). -/
def adpPrgaStep (st : List Nat × Nat × Nat × List Nat) (k : Nat) :
    List Nat × Nat × Nat × List Nat :=
  let S := st.1
  let i := (st.2.1 + 1) &&& 255
  let j := (st.2.2.1 + S.getD i 0) &&& 255
  let S2 := rc4swap S i j
  (S2, i, j, st.2.2.2 ++ [S2.getD ((S2.getD i 0 + S2.getD j 0) &&& 255) 0])

/-- `P25ADPDecrypt::generate_keystream` (src/p25_adp_decrypt.cc:74-114):
13-byte working key = 5-byte key plus the first 8 MI bytes, repeated into the
256-byte `K` array; `S` initialised to 0..255; KSA; PRGA emitting 469 bytes. -/
def generate_keystream (key mi : List Nat) : List Nat :=
  let adp_key : List Nat :=
    (List.range 5).map (fun i => key.getD i 0) ++
    (List.range 8).map (fun i => mi.getD i 0)
  let K : List Nat := (List.range 256).map (fun i => adp_key.getD (i % 13) 0)
  let Sj := (List.range 256).foldl (adpKsaStep K) (List.range 256, 0)
  ((List.range 469).foldl adpPrgaStep (Sj.1, 0, 0, [])).2.2.2

/-- Modelled from the spec (§4.E, ADP/RC4 keystream generation): one KSA step
of standard RC4, `j := (j + S[i] + key[i mod keylen]) mod 256`, then swap. -/
def rc4ksaStepSpec (key : List Nat) (Sj : List Nat × Nat) (i : Nat) : List Nat × Nat :=
  let j := (Sj.2 + Sj.1.getD i 0 + key.getD (i % key.length) 0) % 256
  (rc4swap Sj.1 i j, j)

/-- Modelled from the spec (§4.E): one PRGA step of standard RC4. -/
def rc4prgaStepSpec (st : List Nat × Nat × Nat × List Nat) (k : Nat) :
    List Nat × Nat × Nat × List Nat :=
  let S := st.1
  let i := (st.2.1 + 1) % 256
  let j := (st.2.2.1 + S.getD i 0) % 256
  let S2 := rc4swap S i j
  (S2, i, j, st.2.2.2 ++ [S2.getD ((S2.getD i 0 + S2.getD j 0) % 256) 0])

/-- Modelled from the spec (§4.E and test scenario 4): standard RC4 — KSA on a
256-entry state, then PRGA emitting `n` bytes with no initial discard. -/
def rc4_keystream (key : List Nat) (n : Nat) : List Nat :=
  let Sj := (List.range 256).foldl (rc4ksaStepSpec key) (List.range 256, 0)
  ((List.range n).foldl rc4prgaStepSpec (Sj.1, 0, 0, [])).2.2.2

/-- `P25ADPDecrypt::P25ADPDecrypt` (src/p25_adp_decrypt.cc:6-9): empty key
map, zeroed MI and keystream, position 0. -/
def P25ADPDecrypt_init : P25ADPDecryptState :=
  ⟨[], List.replicate 9 0, List.replicate 469 0, 0⟩

/-- `P25ADPDecrypt::add_key` (src/p25_adp_decrypt.cc:14-17): map assignment
(modelled as cons; `List.lookup` finds the most recent binding first). -/
def P25ADPDecrypt_add_key (s : P25ADPDecryptState) (keyid : Nat) (key : List Nat) :
    Bool × P25ADPDecryptState :=
  (true, { s with d_keys := (keyid, key) :: s.d_keys })

/-- `P25ADPDecrypt::prepare` (src/p25_adp_decrypt.cc:23-45): key lookup,
reset position, store the 9 MI bytes, pad the stored key to 5 bytes with
leading zeros, generate the RC4 keystream. -/
def P25ADPDecrypt_prepare (s : P25ADPDecryptState) (keyid : Nat) (mi : List Nat) :
    Bool × P25ADPDecryptState :=
  match s.d_keys.lookup keyid with
  | none => (false, s)
  | some stored =>
      (true,
        { s with
            d_position := 0
            d_mi := (List.range 9).map (fun i => mi.getD i 0)
            d_keystream := generate_keystream (padKeyTo 5 stored) mi })

/-! ### The code keystream is standard RC4 on the working key -/

theorem and255_eq_mod (x : Nat) : x &&& 255 = x % 256 := by
  have h := Nat.and_pow_two_sub_one_eq_mod x 8
  norm_num at h
  exact h

theorem foldl_congr_of_mem {α β : Type} {f g : β → α → β} :
    ∀ (l : List α), (∀ b x, x ∈ l → f b x = g b x) →
      ∀ (init : β), l.foldl f init = l.foldl g init := by
  intro l
  induction l with
  | nil => intro _ init; rfl
  | cons x xs ih =>
      intro h init
      simp only [List.foldl_cons]
      rw [h init x (List.mem_cons_self x xs)]
      exact ih (fun b y hy => h b y (List.mem_cons_of_mem x hy)) _

theorem getD_map_range (f : Nat → Nat) (n i : Nat) (hi : i < n) :
    ((List.range n).map f).getD i 0 = f i := by
  rw [List.getD_eq_getElem?_getD, List.getElem?_map, List.getElem?_range hi]
  rfl

theorem map_getD_range (l : List Nat) (n : Nat) (h : l.length = n) :
    (List.range n).map (fun i => l.getD i 0) = l := by
  apply List.ext_getElem
  · simp [h]
  · intro i h1 h2
    simp only [List.getElem_map, List.getElem_range]
    rw [List.getD_eq_getElem?_getD, List.getElem?_eq_getElem h2]
    rfl

theorem map_getD_range_take (l : List Nat) (n : Nat) (h : n ≤ l.length) :
    (List.range n).map (fun i => l.getD i 0) = l.take n := by
  apply List.ext_getElem
  · simp [List.length_take]
    omega
  · intro i h1 h2
    simp only [List.getElem_map, List.getElem_range, List.getElem_take]
    have hi : i < l.length := by
      have := h2
      simp [List.length_take] at this
      omega
    rw [List.getD_eq_getElem?_getD, List.getElem?_eq_getElem hi]
    rfl

theorem adpKsaStep_eq_spec (wk : List Nat) (hlen : wk.length = 13) :
    ∀ (b : List Nat × Nat) (i : Nat), i ∈ List.range 256 →
      adpKsaStep ((List.range 256).map (fun i => wk.getD (i % 13) 0)) b i =
      rc4ksaStepSpec wk b i := by
  intro b i hi
  have hi' : i < 256 := List.mem_range.mp hi
  simp only [adpKsaStep, rc4ksaStepSpec, hlen]
  rw [getD_map_range _ 256 i hi', and255_eq_mod]

theorem adpPrgaStep_eq_spec : adpPrgaStep = rc4prgaStepSpec := by
  funext st k
  simp only [adpPrgaStep, rc4prgaStepSpec, and255_eq_mod]

theorem generate_keystream_eq_rc4 (key mi : List Nat)
    (h5 : key.length = 5) (h9 : mi.length = 9) :
    generate_keystream key mi = rc4_keystream (key ++ mi.take 8) 469 := by
  have hwk : ((List.range 5).map (fun i => key.getD i 0) ++
      (List.range 8).map (fun i => mi.getD i 0)) = key ++ mi.take 8 := by
    rw [map_getD_range key 5 h5, map_getD_range_take mi 8 (by omega)]
  have hwklen : (key ++ mi.take 8).length = 13 := by
    simp [h5, List.length_take]
    omega
  simp only [generate_keystream, rc4_keystream, hwk]
  rw [foldl_congr_of_mem (List.range 256) (adpKsaStep_eq_spec _ hwklen) (List.range 256, 0)]
  rw [adpPrgaStep_eq_spec]

theorem adp_prepare_keystream (s : P25ADPDecryptState) (kid : Nat)
    (stored mi : List Nat) (hk : s.d_keys.lookup kid = some stored)
    (h5 : stored.length = 5) (h9 : mi.length = 9) :
    (P25ADPDecrypt_prepare s kid mi).1 = true ∧
    (P25ADPDecrypt_prepare s kid mi).2.d_keystream =
      rc4_keystream (stored ++ mi.take 8) 469 := by
  have hpad : padKeyTo 5 stored = stored := by
    simp [padKeyTo, h5]
  simp only [P25ADPDecrypt_prepare, hk, hpad]
  exact ⟨by trivial, generate_keystream_eq_rc4 stored mi h5 h9⟩

/-- Claim C4: for every 5-byte key and 9-byte MI, the ADP keystream installed
by `prepare` is the first 469 bytes of standard RC4 (KSA then PRGA, no
initial discard) on the 13-byte working key `key ++ mi[0..8)`; in
particular, with key `01 02 03 04 05` and an all-zero MI, the first 16
keystream bytes equal the standard RC4 output for key
`01 02 03 04 05 00 00 00 00 00 00 00 00`. -/
theorem claim_C4_adp_keystream_is_rc4 (s : P25ADPDecryptState) (kid : Nat)
    (stored mi : List Nat) (hk : s.d_keys.lookup kid = some stored)
    (h5 : stored.length = 5) (h9 : mi.length = 9) :
    ((P25ADPDecrypt_prepare s kid mi).1 = true ∧
     (P25ADPDecrypt_prepare s kid mi).2.d_keystream =
       rc4_keystream (stored ++ mi.take 8) 469) ∧
    ((P25ADPDecrypt_prepare
        (P25ADPDecrypt_add_key P25ADPDecrypt_init 1 [1, 2, 3, 4, 5]).2 1
        (List.replicate 9 0)).2.d_keystream.take 16 =
      (rc4_keystream [1, 2, 3, 4, 5, 0, 0, 0, 0, 0, 0, 0, 0] 469).take 16) := by
  refine ⟨adp_prepare_keystream s kid stored mi hk h5 h9, ?_⟩
  have h := (adp_prepare_keystream
    (P25ADPDecrypt_add_key P25ADPDecrypt_init 1 [1, 2, 3, 4, 5]).2 1
    [1, 2, 3, 4, 5] (List.replicate 9 0) (by decide) (by decide) (by decide)).2
  rw [h]
  have hcat : ([1, 2, 3, 4, 5] : List Nat) ++ (List.replicate 9 (0 : Nat)).take 8 =
      [1, 2, 3, 4, 5, 0, 0, 0, 0, 0, 0, 0, 0] := by decide
  rw [hcat]

/-- Witness for C4 at the spec's own test vector (key `01 02 03 04 05`,
key id 1, all-zero MI). -/
theorem claim_C4_adp_keystream_is_rc4_witness :
    (((P25ADPDecrypt_prepare
        (P25ADPDecrypt_add_key P25ADPDecrypt_init 1 [1, 2, 3, 4, 5]).2 1
        (List.replicate 9 0)).1 = true ∧
      (P25ADPDecrypt_prepare
        (P25ADPDecrypt_add_key P25ADPDecrypt_init 1 [1, 2, 3, 4, 5]).2 1
        (List.replicate 9 0)).2.d_keystream =
        rc4_keystream ([1, 2, 3, 4, 5] ++ (List.replicate 9 0).take 8) 469) ∧
     ((P25ADPDecrypt_prepare
        (P25ADPDecrypt_add_key P25ADPDecrypt_init 1 [1, 2, 3, 4, 5]).2 1
        (List.replicate 9 0)).2.d_keystream.take 16 =
      (rc4_keystream [1, 2, 3, 4, 5, 0, 0, 0, 0, 0, 0, 0, 0] 469).take 16)) :=
  claim_C4_adp_keystream_is_rc4
    (P25ADPDecrypt_add_key P25ADPDecrypt_init 1 [1, 2, 3, 4, 5]).2 1
    [1, 2, 3, 4, 5] (List.replicate 9 0) (by decide) (by decide) (by decide)

/-- Claim C10: calling `prepare` with a key id absent from the keyring fails
and leaves the generator state entirely unchanged — the whole state, and in
particular `d_position`, the stored MI and the keystream buffer — for both
the DES-OFB and the ADP/RC4 generator. -/
theorem claim_C10_prepare_atomic_on_keynotfound
    (gen : List Nat → List Nat → List Nat)
    (s : P25DESDecryptState) (t : P25ADPDecryptState)
    (kidD kidA : Nat) (miD miA : List Nat)
    (hD : s.d_keys.lookup kidD = none) (hA : t.d_keys.lookup kidA = none) :
    P25DESDecrypt_prepare gen s kidD miD = (false, s) ∧
    P25ADPDecrypt_prepare t kidA miA = (false, t) ∧
    (P25DESDecrypt_prepare gen s kidD miD).2.d_position = s.d_position ∧
    (P25DESDecrypt_prepare gen s kidD miD).2.d_keystream = s.d_keystream ∧
    (P25ADPDecrypt_prepare t kidA miA).2.d_position = t.d_position ∧
    (P25ADPDecrypt_prepare t kidA miA).2.d_mi = t.d_mi ∧
    (P25ADPDecrypt_prepare t kidA miA).2.d_keystream = t.d_keystream := by
  have e1 : P25DESDecrypt_prepare gen s kidD miD = (false, s) := by
    simp only [P25DESDecrypt_prepare, hD]
  have e2 : P25ADPDecrypt_prepare t kidA miA = (false, t) := by
    simp only [P25ADPDecrypt_prepare, hA]
  exact ⟨e1, e2, by rw [e1], by rw [e1], by rw [e2], by rw [e2], by rw [e2]⟩

/-- Witness for C10 on concrete generator states and an empty keyring. -/
theorem claim_C10_prepare_atomic_on_keynotfound_witness :
    P25DESDecrypt_prepare (fun _ _ => []) ⟨[], [7, 8], 3⟩ 5 [9] = (false, ⟨[], [7, 8], 3⟩) ∧
    P25ADPDecrypt_prepare ⟨[], [1], [2, 2], 4⟩ 5 [9] = (false, ⟨[], [1], [2, 2], 4⟩) ∧
    (P25DESDecrypt_prepare (fun _ _ => []) ⟨[], [7, 8], 3⟩ 5 [9]).2.d_position = 3 ∧
    (P25DESDecrypt_prepare (fun _ _ => []) ⟨[], [7, 8], 3⟩ 5 [9]).2.d_keystream = [7, 8] ∧
    (P25ADPDecrypt_prepare ⟨[], [1], [2, 2], 4⟩ 5 [9]).2.d_position = 4 ∧
    (P25ADPDecrypt_prepare ⟨[], [1], [2, 2], 4⟩ 5 [9]).2.d_mi = [1] ∧
    (P25ADPDecrypt_prepare ⟨[], [1], [2, 2], 4⟩ 5 [9]).2.d_keystream = [2, 2] :=
  claim_C10_prepare_atomic_on_keynotfound (fun _ _ => []) ⟨[], [7, 8], 3⟩
    ⟨[], [1], [2, 2], 4⟩ 5 5 [9] [9] (by decide) (by decide)

/-! ## §6  Frame reader and LDU2 encryption-sync extraction

`P25Frame` (src/p25_frame_parser.h:9-28).  The display-only fields
(`frame_type_name`, `emergency_flag`, `talk_group`, `source_id`) play no part
in any claim and are omitted.  Input bytes come from `std::ifstream::read`
into `uint8_t`, so every byte of a capture stream is below 256; the model
does not re-mask them. -/

structure P25Frame where
  duid : Nat
  nac : Nat
  frame_length : Nat
  data : List Nat
  is_voice_frame : Bool
  is_encrypted : Bool
  algorithm_id : Nat
  key_id : Nat
deriving Repr, DecidableEq

/-- `P25Frame::P25Frame` default constructor (src/p25_frame_parser.h:25-27). -/
def P25Frame_init : P25Frame := ⟨0, 0, 0, [], false, false, 0, 0⟩

/-- `imbe_ldu_ls_data_bits` (src/p25_frame_parser.cc:134-155): the 240 LDU2
link-signaling bit positions. -/
def imbe_ldu_ls_data_bits : List Nat :=
  [410,  411,  412,  413,  414,  415,  416,  417,  418,  419,  420,  421,
   422,  423,  424,  425,  426,  427,  428,  429,  432,  433,  434,  435,
   436,  437,  438,  439,  440,  441,  442,  443,  444,  445,  446,  447,
   448,  449,  450,  451,  600,  601,  602,  603,  604,  605,  606,  607,
   608,  609,  610,  611,  612,  613,  614,  615,  616,  617,  618,  619,
   620,  621,  622,  623,  624,  625,  626,  627,  628,  629,  630,  631,
   632,  633,  634,  635,  636,  637,  638,  639,  788,  789,  792,  793,
   794,  795,  796,  797,  798,  799,  800,  801,  802,  803,  804,  805,
   806,  807,  808,  809,  810,  811,  812,  813,  814,  815,  816,  817,
   818,  819,  820,  821,  822,  823,  824,  825,  826,  827,  828,  829,
   978,  979,  980,  981,  982,  983,  984,  985,  986,  987,  988,  989,
   990,  991,  992,  993,  994,  995,  996,  997,  998,  999, 1000, 1001,
   1002, 1003, 1004, 1005, 1008, 1009, 1010, 1011, 1012, 1013, 1014, 1015,
   1016, 1017, 1018, 1019, 1168, 1169, 1170, 1171, 1172, 1173, 1174, 1175,
   1176, 1177, 1178, 1179, 1180, 1181, 1182, 1183, 1184, 1185, 1186, 1187,
   1188, 1189, 1190, 1191, 1192, 1193, 1194, 1195, 1196, 1197, 1198, 1199,
   1200, 1201, 1202, 1203, 1204, 1205, 1206, 1207, 1356, 1357, 1358, 1359,
   1360, 1361, 1362, 1363, 1364, 1365, 1368, 1369, 1370, 1371, 1372, 1373,
   1374, 1375, 1376, 1377, 1378, 1379, 1380, 1381, 1382, 1383, 1384, 1385,
   1386, 1387, 1388, 1389, 1390, 1391, 1392, 1393, 1394, 1395, 1396, 1397]

/-- MSB-first bit unpacking (src/p25_frame_parser.cc:126-131):
`bits[i*8 + (7-j)] = (data[i] >> j) & 1`.  Bits are modelled as 0/1. -/
def frameBits (data : List Nat) : List Nat :=
  data.flatMap (fun b => (List.range 8).map (fun p => (b >>> (7 - p)) &&& 1))

/-- Gathering of the `i`-th 10-bit link-signaling codeword
(src/p25_frame_parser.cc:161-168): the flat table index is `k = i*10 + j`;
the `k < 240` guard never fires for `i < 24`, and the position guard
`table[k] < bits.size()` is kept as in the source. -/
def gatherCodeword (bits : List Nat) (i : Nat) : Nat :=
  (List.range 10).foldl
    (fun cw j =>
      if imbe_ldu_ls_data_bits.getD (i * 10 + j) 0 < bits.length then
        (cw <<< 1) + bits.getD (imbe_ldu_ls_data_bits.getD (i * 10 + j) 0) 0
      else cw)
    0

/-- `P25FrameParser::parse_encryption_fields` (src/p25_frame_parser.cc:117-192).
Frames shorter than 216 bytes are returned unchanged.  The hexbit vector `HB`
holds 63 `uint8_t` entries, positions 39..62 being filled from the 24 Hamming
steps.  The local 9-byte `mi` array computed at lines 176-182 is discarded by
the C++ code (the frame has no MI field), so it does not appear in the state.
`algorithm_id` is a `uint8_t` and `key_id` a `uint16_t`, hence the masks. -/
def parse_encryption_fields (f : P25Frame) : P25Frame :=
  if f.data.length < 216 then f
  else
    let bits := frameBits f.data
    let HB := (List.range 24).foldl
      (fun HB i => HB.set (39 + i) (hammingDecodeWord (gatherCodeword bits i)))
      (List.replicate 63 0)
    let algid := ((HB.getD 51 0 <<< 2) + (HB.getD 52 0 >>> 4)) &&& 255
    let kid := (((HB.getD 52 0 &&& 0x0f) <<< 12) + (HB.getD 53 0 <<< 6) + HB.getD 54 0) &&& 65535
    { f with
        algorithm_id := algid
        key_id := kid
        is_encrypted := algid != 128 }

/-- `P25FrameParser::read_frame` (src/p25_frame_parser.cc:47-85) on a byte
stream.  The C++ mutates a caller-owned `P25Frame` in place and the decode
loop reuses one record, so fields not written for this unit (notably
`is_encrypted`, `algorithm_id`, `key_id` for non-LDU2 units) keep their
values from the previous unit; the model threads that record as `prev`.
`none` models the `return false` paths: fewer than 5 header bytes, or a
payload short-read (the partially filled record is discarded by the caller's
`while` loop either way). -/
def read_frame (prev : P25Frame) (input : List Nat) : Option (P25Frame × List Nat) :=
  if input.length < 5 then none
  else
    let duid := input.getD 0 0
    let nac := (input.getD 1 0 <<< 8) ||| input.getD 2 0
    let len := (input.getD 3 0 <<< 8) ||| input.getD 4 0
    let rest := input.drop 5
    if rest.length < len then none
    else
      let f : P25Frame :=
        { prev with
            duid := duid
            nac := nac
            frame_length := len
            data := rest.take len
            is_voice_frame := duid == 0x05 || duid == 0x0A }
      some ((if duid == 0x0A then parse_encryption_fields f else f), rest.drop len)

theorem read_frame_rest_length {prev : P25Frame} {input : List Nat}
    {f : P25Frame} {rest : List Nat}
    (h : read_frame prev input = some (f, rest)) : rest.length < input.length := by
  unfold read_frame at h
  by_cases h5 : input.length < 5
  · rw [if_pos h5] at h
    exact absurd h (by simp)
  · rw [if_neg h5] at h
    by_cases hsr : (input.drop 5).length < (input.getD 3 0 <<< 8) ||| input.getD 4 0
    · rw [if_pos hsr] at h
      exact absurd h (by simp)
    · rw [if_neg hsr] at h
      have : rest = (input.drop 5).drop ((input.getD 3 0 <<< 8) ||| input.getD 4 0) := by
        have := (Option.some.injEq _ _).mp h
        exact (congrArg Prod.snd this).symm
      rw [this, List.drop_drop, List.length_drop]
      omega

/-- Fuel-indexed helper for the reading loop; each successful `read_frame`
consumes at least 5 input bytes, so `input.length + 1` fuel always suffices
(`parse_frames_fuel_congr` below). -/
def parse_frames_fuel : Nat → P25Frame → List Nat → List P25Frame
  | 0, _, _ => []
  | fuel + 1, prev, input =>
    match read_frame prev input with
    | none => []
    | some (f, rest) => f :: parse_frames_fuel fuel f rest

/-- The `while (parser_->read_frame(frame))` loop of
`P25Decoder::decode_to_audio` (src/p25_decoder.cc:381) viewed as the list of
units it yields, threading the reused frame record. -/
def parse_frames (prev : P25Frame) (input : List Nat) : List P25Frame :=
  parse_frames_fuel (input.length + 1) prev input

theorem parse_frames_fuel_congr :
    ∀ (fuel1 fuel2 : Nat) (prev : P25Frame) (input : List Nat),
      input.length < fuel1 → input.length < fuel2 →
      parse_frames_fuel fuel1 prev input = parse_frames_fuel fuel2 prev input := by
  intro fuel1
  induction fuel1 with
  | zero =>
      intro fuel2 prev input h1 h2
      omega
  | succ n ih =>
      intro fuel2 prev input h1 h2
      cases fuel2 with
      | zero => omega
      | succ m =>
          cases hr : read_frame prev input with
          | none => simp only [parse_frames_fuel, hr]
          | some pr =>
              obtain ⟨f, rest⟩ := pr
              have hlt := read_frame_rest_length hr
              simp only [parse_frames_fuel, hr]
              exact congrArg (f :: ·) (ih m f rest (by omega) (by omega))

theorem parse_frames_unfold (prev : P25Frame) (input : List Nat) :
    parse_frames prev input =
      match read_frame prev input with
      | none => []
      | some (f, rest) => f :: parse_frames f rest := by
  cases hr : read_frame prev input with
  | none => simp only [parse_frames, parse_frames_fuel, hr]
  | some pr =>
      obtain ⟨f, rest⟩ := pr
      have hlt := read_frame_rest_length hr
      simp only [parse_frames, parse_frames_fuel, hr]
      exact congrArg (f :: ·)
        (parse_frames_fuel_congr input.length (rest.length + 1) f rest (by omega) (by omega))

theorem parse_encryption_fields_preserves (g : P25Frame) :
    (parse_encryption_fields g).duid = g.duid ∧
    (parse_encryption_fields g).nac = g.nac ∧
    (parse_encryption_fields g).frame_length = g.frame_length ∧
    (parse_encryption_fields g).data = g.data ∧
    (parse_encryption_fields g).is_voice_frame = g.is_voice_frame := by
  unfold parse_encryption_fields
  by_cases h : g.data.length < 216
  · rw [if_pos h]
    exact ⟨rfl, rfl, rfl, rfl, rfl⟩
  · rw [if_neg h]
    exact ⟨rfl, rfl, rfl, rfl, rfl⟩

theorem read_frame_none_of_short {prev : P25Frame} {input : List Nat}
    (h : input.length < 5) : read_frame prev input = none := by
  unfold read_frame
  rw [if_pos h]

/-- The frame record written by the successful path of `read_frame`
(src/p25_frame_parser.cc:61-71), before the LDU2 encryption-field pass. -/
def readFrameBase (prev : P25Frame) (input : List Nat) : P25Frame :=
  { prev with
      duid := input.getD 0 0
      nac := (input.getD 1 0 <<< 8) ||| input.getD 2 0
      frame_length := (input.getD 3 0 <<< 8) ||| input.getD 4 0
      data := (input.drop 5).take ((input.getD 3 0 <<< 8) ||| input.getD 4 0)
      is_voice_frame := input.getD 0 0 == 0x05 || input.getD 0 0 == 0x0A }

theorem read_frame_eq_some {prev : P25Frame} {input : List Nat}
    (h5 : ¬ input.length < 5)
    (hsr : ¬ (input.drop 5).length < (input.getD 3 0 <<< 8) ||| input.getD 4 0) :
    read_frame prev input =
      some ((if (input.getD 0 0 == 0x0A) = true then
              parse_encryption_fields (readFrameBase prev input)
             else readFrameBase prev input),
            input.drop (5 + ((input.getD 3 0 <<< 8) ||| input.getD 4 0))) := by
  simp only [read_frame, if_neg h5, if_neg hsr, readFrameBase, List.drop_drop]

theorem read_frame_some_spec {prev : P25Frame} {input : List Nat}
    {f : P25Frame} {rest : List Nat}
    (h : read_frame prev input = some (f, rest)) :
    5 ≤ input.length ∧
    f.duid = input.getD 0 0 ∧
    f.nac = (input.getD 1 0 <<< 8) ||| input.getD 2 0 ∧
    f.frame_length = (input.getD 3 0 <<< 8) ||| input.getD 4 0 ∧
    f.data = (input.drop 5).take ((input.getD 3 0 <<< 8) ||| input.getD 4 0) ∧
    f.data.length = f.frame_length ∧
    rest = input.drop (5 + ((input.getD 3 0 <<< 8) ||| input.getD 4 0)) := by
  by_cases h5 : input.length < 5
  · rw [read_frame_none_of_short h5] at h
    exact absurd h (by simp)
  · by_cases hsr : (input.drop 5).length < (input.getD 3 0 <<< 8) ||| input.getD 4 0
    · simp only [read_frame, if_neg h5, if_pos hsr] at h
      exact Option.noConfusion h
    · rw [read_frame_eq_some h5 hsr] at h
      have hp := Option.some.inj h
      have hf := congrArg Prod.fst hp
      have hr := congrArg Prod.snd hp
      simp only at hf hr
      have hlen5 : 5 ≤ input.length := Nat.le_of_not_lt h5
      have hdatalen :
          ((input.drop 5).take ((input.getD 3 0 <<< 8) ||| input.getD 4 0)).length =
            (input.getD 3 0 <<< 8) ||| input.getD 4 0 := by
        rw [List.length_take]
        have := Nat.le_of_not_lt hsr
        omega
      by_cases hd : (input.getD 0 0 == 0x0A) = true
      · rw [if_pos hd] at hf
        obtain ⟨p1, p2, p3, p4, p5⟩ :=
          parse_encryption_fields_preserves (readFrameBase prev input)
        rw [hf] at p1 p2 p3 p4
        refine ⟨hlen5, p1, p2, p3, p4, ?_, hr.symm⟩
        rw [p4, p3]
        exact hdatalen
      · rw [if_neg hd] at hf
        refine ⟨hlen5, ?_, ?_, ?_, ?_, ?_, hr.symm⟩
        · rw [← hf]; rfl
        · rw [← hf]; rfl
        · rw [← hf]; rfl
        · rw [← hf]; rfl
        · rw [← hf]
          exact hdatalen

theorem parse_frames_all_full :
    ∀ (n : Nat) (prev : P25Frame) (input : List Nat), input.length ≤ n →
      (parse_frames prev input).all (fun g => g.data.length == g.frame_length) = true := by
  intro n
  induction n with
  | zero =>
      intro prev input hle
      have h5 : input.length < 5 := by omega
      rw [parse_frames_unfold, read_frame_none_of_short h5]
      rfl
  | succ n ih =>
      intro prev input hle
      rw [parse_frames_unfold]
      split
      · rfl
      · rename_i f rest hr
        simp only [List.all_cons, Bool.and_eq_true, beq_iff_eq]
        refine ⟨(read_frame_some_spec hr).2.2.2.2.2.1, ?_⟩
        have hlt := read_frame_rest_length hr
        exact ih f rest (by omega)

/-- Claim C8: the frame reader returns end-of-stream when fewer than 5 header
bytes remain; a successfully read unit carries `byte0` as DUID,
`byte1<<8 | byte2` as NAC and `byte3<<8 | byte4` as big-endian payload
length, consuming exactly that many payload bytes; a payload short-read ends
the stream cleanly (`none`, the same value as a normal end of stream — no
error is surfaced); and every unit the reading loop emits before a
truncation carries its full payload. -/
theorem claim_C8_frame_reader (prev : P25Frame) (input : List Nat)
    (f : P25Frame) (rest : List Nat) :
    (input.length < 5 → read_frame prev input = none) ∧
    (read_frame prev input = some (f, rest) →
      f.duid = input.getD 0 0 ∧
      f.nac = (input.getD 1 0 <<< 8) ||| input.getD 2 0 ∧
      f.frame_length = (input.getD 3 0 <<< 8) ||| input.getD 4 0 ∧
      f.data.length = f.frame_length ∧
      input = input.take 5 ++ f.data ++ rest) ∧
    (5 ≤ input.length →
      (input.drop 5).length < (input.getD 3 0 <<< 8) ||| input.getD 4 0 →
      read_frame prev input = none) ∧
    (parse_frames prev input).all (fun g => g.data.length == g.frame_length) = true := by
  refine ⟨fun h5 => read_frame_none_of_short h5, ?_, ?_, ?_⟩
  · intro h
    obtain ⟨h5, hduid, hnac, hlen, hdata, hdlen, hrest⟩ := read_frame_some_spec h
    refine ⟨hduid, hnac, hlen, hdlen, ?_⟩
    rw [hdata, hrest]
    have hL : input.drop 5 =
        (input.drop 5).take ((input.getD 3 0 <<< 8) ||| input.getD 4 0) ++
        (input.drop 5).drop ((input.getD 3 0 <<< 8) ||| input.getD 4 0) :=
      (List.take_append_drop _ _).symm
    calc input = input.take 5 ++ input.drop 5 := (List.take_append_drop 5 input).symm
      _ = input.take 5 ++
          ((input.drop 5).take ((input.getD 3 0 <<< 8) ||| input.getD 4 0) ++
           (input.drop 5).drop ((input.getD 3 0 <<< 8) ||| input.getD 4 0)) := by rw [← hL]
      _ = input.take 5 ++
          (input.drop 5).take ((input.getD 3 0 <<< 8) ||| input.getD 4 0) ++
          input.drop (5 + ((input.getD 3 0 <<< 8) ||| input.getD 4 0)) := by
            rw [List.append_assoc, List.drop_drop]
  · intro h5 hsr
    simp only [read_frame, if_neg (Nat.not_lt.mpr h5), if_pos hsr]
  · exact parse_frames_all_full input.length prev input (Nat.le_refl _)

/-- Witness for C8: a capture holding one full unit
(DUID 0x05, NAC 0x0ABC, length 2, payload `AA BB`) followed by a truncated
2-byte tail. -/
theorem claim_C8_frame_reader_witness :
    read_frame P25Frame_init [10, 0] = none ∧
    ((⟨5, 2748, 2, [170, 187], true, false, 0, 0⟩ : P25Frame).duid =
        ([5, 10, 188, 0, 2, 170, 187, 10, 0] : List Nat).getD 0 0 ∧
      (⟨5, 2748, 2, [170, 187], true, false, 0, 0⟩ : P25Frame).nac =
        (([5, 10, 188, 0, 2, 170, 187, 10, 0] : List Nat).getD 1 0 <<< 8) |||
          ([5, 10, 188, 0, 2, 170, 187, 10, 0] : List Nat).getD 2 0 ∧
      (⟨5, 2748, 2, [170, 187], true, false, 0, 0⟩ : P25Frame).frame_length =
        (([5, 10, 188, 0, 2, 170, 187, 10, 0] : List Nat).getD 3 0 <<< 8) |||
          ([5, 10, 188, 0, 2, 170, 187, 10, 0] : List Nat).getD 4 0 ∧
      (⟨5, 2748, 2, [170, 187], true, false, 0, 0⟩ : P25Frame).data.length =
        (⟨5, 2748, 2, [170, 187], true, false, 0, 0⟩ : P25Frame).frame_length ∧
      ([5, 10, 188, 0, 2, 170, 187, 10, 0] : List Nat) =
        ([5, 10, 188, 0, 2, 170, 187, 10, 0] : List Nat).take 5 ++
          (⟨5, 2748, 2, [170, 187], true, false, 0, 0⟩ : P25Frame).data ++ [10, 0]) ∧
    (parse_frames P25Frame_init [5, 10, 188, 0, 2, 170, 187, 10, 0]).all
      (fun g => g.data.length == g.frame_length) = true := by
  refine ⟨?_, ?_, ?_⟩
  · exact (claim_C8_frame_reader P25Frame_init [10, 0] P25Frame_init []).1 (by decide)
  · exact (claim_C8_frame_reader P25Frame_init [5, 10, 188, 0, 2, 170, 187, 10, 0]
      ⟨5, 2748, 2, [170, 187], true, false, 0, 0⟩ [10, 0]).2.1 (by decide)
  · exact (claim_C8_frame_reader P25Frame_init [5, 10, 188, 0, 2, 170, 187, 10, 0]
      P25Frame_init []).2.2.2

/-! ## §7  Decode pipeline (`P25Decoder::decode_to_audio`)

`CallMetadata` (src/p25_decoder.h:36-60), restricted to the fields the
pipeline writes and the JSON generator reads.  `call_length` is a C++
`double`; only its printed form matters here, so it is carried as the
already-formatted character string (`std::fixed << std::setprecision(2)`).

The OP25 helpers `imbe_deinterleave`, `imbe_header_decode` and the stateful
IMBE vocoder (`vocoder_->imbe_decode`) live outside src/
(`op25_imbe_frame.h`, `imbe_vocoder/`); they enter the model as the
parameters `deint`, `hdr` and `dec` with an abstract vocoder state `V`. -/

structure CallMetadata where
  nac : Nat
  total_frames : Nat
  voice_frames : Nat
  has_encrypted_frames : Bool
  call_length : List Char
  audio_type : List Char
deriving Repr, DecidableEq

/-- `CallMetadata::CallMetadata` (src/p25_decoder.h:57-59). -/
def CallMetadata_init : CallMetadata :=
  ⟨0, 0, 0, false, '0' :: [], ('d' :: "igital".toList)⟩

/-- The `P25Decoder` members touched by the decode loop
(src/p25_decoder.h:62-95): call metadata, the three decryption objects
(AES omitted; like the two modelled ones it is never invoked by the loop),
the vocoder and the sample buffer, plus the loop-local `frame_count`. -/
structure P25DecoderState (V : Type) where
  metadata : CallMetadata
  des : P25DESDecryptState
  adp : P25ADPDecryptState
  voc : V
  audio_buffer : List Int
  frame_count : Nat

/-- `P25Decoder::extract_imbe_from_p25_frame` (src/p25_decoder.cc:183-240):
unpack the payload MSB-first into bits, then for each of the nine codewords
deinterleave, header-decode into the parameter vector `u`, shift `u[7]`
right by one, and hand the vector to the vocoder; 160 samples per codeword
are appended.  No decryption routine is invoked anywhere in this function:
the codewords go to the vocoder exactly as deinterleaved. -/
def extract_imbe_from_p25_frame {V : Type}
    (deint : List Nat → Nat → List Bool)
    (hdr : List Bool → List Nat)
    (dec : V → List Nat → V × List Int)
    (voc : V) (frame : P25Frame) : V × List Int :=
  let frame_bits := frameBits frame.data
  (List.range 9).foldl
    (fun (st : V × List Int) i =>
      let codeword := deint frame_bits i
      let u := hdr codeword
      let frame_vector := ((List.range 8).map (fun j => u.getD j 0)).set 7 (u.getD 7 0 >>> 1)
      let r := dec st.1 frame_vector
      (r.1, st.2 ++ r.2))
    (voc, [])

/-- `P25Decoder::decode_voice_frame` (src/p25_decoder.cc:153-181): on a voice
frame, try the IMBE path; an empty extraction falls back to 160 samples of
silence.  Non-voice frames yield `false` and no samples. -/
def decode_voice_frame {V : Type}
    (deint : List Nat → Nat → List Bool)
    (hdr : List Bool → List Nat)
    (dec : V → List Nat → V × List Int)
    (voc : V) (frame : P25Frame) : Bool × V × List Int :=
  if frame.is_voice_frame then
    let r := extract_imbe_from_p25_frame deint hdr dec voc frame
    if r.2.isEmpty then (true, r.1, List.replicate 160 0)
    else (true, r.1, r.2)
  else (false, voc, [])

/-- The body of the `while (parser_->read_frame(frame))` loop of
`P25Decoder::decode_to_audio` (src/p25_decoder.cc:381-418) on the members it
reads and writes: `frame_count++`, `total_frames++`, first-frame NAC,
encrypted flag, and for voice frames the voice counter, the voice decode and
the sample append.  The decryption members (`des_decrypt_`, `aes_decrypt_`,
`adp_decrypt_`, `current_mi_`) are never mentioned in the loop body, so they
pass through unchanged. -/
def decode_frame_core {V : Type}
    (deint : List Nat → Nat → List Bool)
    (hdr : List Bool → List Nat)
    (dec : V → List Nat → V × List Int)
    (c : CallMetadata × V × List Int × Nat) (frame : P25Frame) :
    CallMetadata × V × List Int × Nat :=
  let fc := c.2.2.2 + 1
  let md0 := { c.1 with total_frames := c.1.total_frames + 1 }
  let md1 := if fc == 1 then { md0 with nac := frame.nac } else md0
  let md2 := if frame.is_encrypted then { md1 with has_encrypted_frames := true } else md1
  if frame.is_voice_frame then
    let md3 := { md2 with voice_frames := md2.voice_frames + 1 }
    let r := decode_voice_frame deint hdr dec c.2.1 frame
    if r.1 then (md3, r.2.1, c.2.2.1 ++ r.2.2, fc)
    else (md3, r.2.1, c.2.2.1, fc)
  else (md2, c.2.1, c.2.2.1, fc)

def decode_frame_step {V : Type}
    (deint : List Nat → Nat → List Bool)
    (hdr : List Bool → List Nat)
    (dec : V → List Nat → V × List Int)
    (st : P25DecoderState V) (frame : P25Frame) : P25DecoderState V :=
  let c := decode_frame_core deint hdr dec
    (st.metadata, st.voc, st.audio_buffer, st.frame_count) frame
  { metadata := c.1, des := st.des, adp := st.adp,
    voc := c.2.1, audio_buffer := c.2.2.1, frame_count := c.2.2.2 }

/-- The frame loop of `P25Decoder::decode_to_audio` (src/p25_decoder.cc:381-418)
over a capture byte stream (the file-handling, WAV and JSON epilogue are
modelled separately). -/
def decode_to_audio {V : Type}
    (deint : List Nat → Nat → List Bool)
    (hdr : List Bool → List Nat)
    (dec : V → List Nat → V × List Int)
    (s0 : P25DecoderState V) (input : List Nat) : P25DecoderState V :=
  (parse_frames P25Frame_init input).foldl (decode_frame_step deint hdr dec) s0

theorem decode_foldl_decrypt_untouched {V : Type}
    (deint : List Nat → Nat → List Bool)
    (hdr : List Bool → List Nat)
    (dec : V → List Nat → V × List Int) :
    ∀ (frames : List P25Frame) (st : P25DecoderState V),
      (frames.foldl (decode_frame_step deint hdr dec) st).des = st.des ∧
      (frames.foldl (decode_frame_step deint hdr dec) st).adp = st.adp := by
  intro frames
  induction frames with
  | nil => intro st; exact ⟨rfl, rfl⟩
  | cons f fs ih =>
      intro st
      simp only [List.foldl_cons]
      exact ih (decode_frame_step deint hdr dec st f)

theorem decode_foldl_core {V : Type}
    (deint : List Nat → Nat → List Bool)
    (hdr : List Bool → List Nat)
    (dec : V → List Nat → V × List Int) :
    ∀ (frames : List P25Frame) (md : CallMetadata) (d : P25DESDecryptState)
      (a : P25ADPDecryptState) (v : V) (ab : List Int) (fc : Nat),
      frames.foldl (decode_frame_step deint hdr dec) ⟨md, d, a, v, ab, fc⟩ =
      ⟨(frames.foldl (decode_frame_core deint hdr dec) (md, v, ab, fc)).1, d, a,
       (frames.foldl (decode_frame_core deint hdr dec) (md, v, ab, fc)).2.1,
       (frames.foldl (decode_frame_core deint hdr dec) (md, v, ab, fc)).2.2.1,
       (frames.foldl (decode_frame_core deint hdr dec) (md, v, ab, fc)).2.2.2⟩ := by
  intro frames
  induction frames with
  | nil => intro md d a v ab fc; rfl
  | cons f fs ih =>
      intro md d a v ab fc
      simp only [List.foldl_cons]
      rw [show decode_frame_step deint hdr dec ⟨md, d, a, v, ab, fc⟩ f =
        ⟨(decode_frame_core deint hdr dec (md, v, ab, fc) f).1, d, a,
         (decode_frame_core deint hdr dec (md, v, ab, fc) f).2.1,
         (decode_frame_core deint hdr dec (md, v, ab, fc) f).2.2.1,
         (decode_frame_core deint hdr dec (md, v, ab, fc) f).2.2.2⟩ from rfl]
      rw [ih]

/-- Claim C1 (code-bug evidence).  The decode pipeline never decrypts:
(1) the DES and ADP decryption objects are bit-identical before and after
`decode_to_audio` — `prepare(key_id, mi)` is never called on any LDU2 and
`decrypt_codeword` never runs (both would change `d_position`, `d_mi` or
`d_keystream` state observable here, and neither identifier occurs in
src/p25_decoder.cc at all);
(2) the produced audio and metadata are independent of the decryption
objects, keys included — codewords reach the vocoder undecrypted;
(3) concretely, decoding a capture holding one LDU2 (DUID 0x0A, 216-byte
payload, whose encryption-sync decodes to algorithm_id 0x00 ≠ 0x80, key id 0)
with key id 0 present in both keyrings marks the call encrypted, yet leaves
both generators untouched and emits the same 160 fallback samples a clear
frame would get. -/
theorem claim_C1_pipeline_never_decrypts :
    (∀ (V : Type) (deint : List Nat → Nat → List Bool) (hdr : List Bool → List Nat)
       (dec : V → List Nat → V × List Int) (s0 : P25DecoderState V) (input : List Nat),
      (decode_to_audio deint hdr dec s0 input).des = s0.des ∧
      (decode_to_audio deint hdr dec s0 input).adp = s0.adp) ∧
    (∀ (V : Type) (deint : List Nat → Nat → List Bool) (hdr : List Bool → List Nat)
       (dec : V → List Nat → V × List Int) (md : CallMetadata)
       (d1 d2 : P25DESDecryptState) (a1 a2 : P25ADPDecryptState) (v : V)
       (ab : List Int) (fc : Nat) (input : List Nat),
      (decode_to_audio deint hdr dec ⟨md, d1, a1, v, ab, fc⟩ input).audio_buffer =
        (decode_to_audio deint hdr dec ⟨md, d2, a2, v, ab, fc⟩ input).audio_buffer ∧
      (decode_to_audio deint hdr dec ⟨md, d1, a1, v, ab, fc⟩ input).metadata =
        (decode_to_audio deint hdr dec ⟨md, d2, a2, v, ab, fc⟩ input).metadata) ∧
    ((decode_to_audio (fun _ _ => []) (fun _ => []) (fun v _ => (v, []))
        ⟨CallMetadata_init, ⟨[(0, [1, 2, 3, 4, 5, 6, 7, 8])], List.replicate 224 0, 0⟩,
         (P25ADPDecrypt_add_key P25ADPDecrypt_init 0 [1, 2, 3, 4, 5]).2, (), [], 0⟩
        ([0x0A, 0, 0, 0, 216] ++ List.replicate 216 0)).metadata.has_encrypted_frames = true ∧
     (decode_to_audio (fun _ _ => []) (fun _ => []) (fun v _ => (v, []))
        ⟨CallMetadata_init, ⟨[(0, [1, 2, 3, 4, 5, 6, 7, 8])], List.replicate 224 0, 0⟩,
         (P25ADPDecrypt_add_key P25ADPDecrypt_init 0 [1, 2, 3, 4, 5]).2, (), [], 0⟩
        ([0x0A, 0, 0, 0, 216] ++ List.replicate 216 0)).metadata.voice_frames = 1 ∧
     (decode_to_audio (fun _ _ => []) (fun _ => []) (fun v _ => (v, []))
        ⟨CallMetadata_init, ⟨[(0, [1, 2, 3, 4, 5, 6, 7, 8])], List.replicate 224 0, 0⟩,
         (P25ADPDecrypt_add_key P25ADPDecrypt_init 0 [1, 2, 3, 4, 5]).2, (), [], 0⟩
        ([0x0A, 0, 0, 0, 216] ++ List.replicate 216 0)).des =
       ⟨[(0, [1, 2, 3, 4, 5, 6, 7, 8])], List.replicate 224 0, 0⟩ ∧
     (decode_to_audio (fun _ _ => []) (fun _ => []) (fun v _ => (v, []))
        ⟨CallMetadata_init, ⟨[(0, [1, 2, 3, 4, 5, 6, 7, 8])], List.replicate 224 0, 0⟩,
         (P25ADPDecrypt_add_key P25ADPDecrypt_init 0 [1, 2, 3, 4, 5]).2, (), [], 0⟩
        ([0x0A, 0, 0, 0, 216] ++ List.replicate 216 0)).adp =
       (P25ADPDecrypt_add_key P25ADPDecrypt_init 0 [1, 2, 3, 4, 5]).2 ∧
     (decode_to_audio (fun _ _ => []) (fun _ => []) (fun v _ => (v, []))
        ⟨CallMetadata_init, ⟨[(0, [1, 2, 3, 4, 5, 6, 7, 8])], List.replicate 224 0, 0⟩,
         (P25ADPDecrypt_add_key P25ADPDecrypt_init 0 [1, 2, 3, 4, 5]).2, (), [], 0⟩
        ([0x0A, 0, 0, 0, 216] ++ List.replicate 216 0)).audio_buffer =
       List.replicate 160 0) := by
  refine ⟨?_, ?_, ?_⟩
  · intro V deint hdr dec s0 input
    exact decode_foldl_decrypt_untouched deint hdr dec (parse_frames P25Frame_init input) s0
  · intro V deint hdr dec md d1 d2 a1 a2 v ab fc input
    simp only [decode_to_audio]
    rw [decode_foldl_core, decode_foldl_core]
    exact ⟨rfl, rfl⟩
  · decide

/-! ## §8  Job manager: job processing (C6) and queue bound (C7) -/

/-- `ProcessingJob::Status` (src/job_manager.h:37-42). -/
inductive JobStatus
  | QUEUED
  | PROCESSING
  | COMPLETED
  | FAILED
deriving Repr, DecidableEq

/-- The `ProcessingJob` fields the worker writes (src/job_manager.h:20-49);
times are carried in milliseconds. -/
structure ProcessingJob where
  job_id : List Char
  status : JobStatus
  error_message : List Char
  started_time : Nat
  completed_time : Nat
deriving Repr, DecidableEq

/-- The externally determined results of the I/O steps of
`JobManager::process_job` (src/job_manager.cc:238-304): whether a decoder
instance is obtained, the P25 file opens, the decode succeeds and the WAV
file exists afterwards; `decode_elapsed_ms` is the wall time the whole run
takes.  The source reads no clock during processing, which is the point of
claim C6. -/
structure JobRunEnv where
  decoder_ok : Bool
  open_ok : Bool
  decode_ok : Bool
  wav_exists : Bool
  decode_elapsed_ms : Nat
deriving Repr, DecidableEq

/-- `JobManager::process_job` (src/job_manager.cc:238-304): success flag and
the job's `error_message` afterwards.  `job_timeout_ms_` is not consulted —
the identifier occurs nowhere in the function (nor anywhere outside the
constructor, src/job_manager.cc:14-17). -/
def process_job (env : JobRunEnv) (job : ProcessingJob) : Bool × List Char :=
  if env.decoder_ok = false then (false, "Failed to get decoder instance".toList)
  else if env.open_ok = false then (false, "Failed to open P25 file".toList)
  else if env.decode_ok = false then (false, "Failed to decode P25 audio".toList)
  else if env.wav_exists = false then (false, "WAV file was not generated".toList)
  else (true, job.error_message)

/-- The per-claimed-job section of `JobManager::worker_thread_main`
(src/job_manager.cc:189-230): mark PROCESSING with `started_time`, run
`process_job`, set `completed_time`, move to COMPLETED or FAILED.
`job_timeout_ms` is the value stored by the constructor; it is listed as a
parameter precisely so the theorems can state that the result does not
depend on it. -/
def worker_run_job (job_timeout_ms claim_time_ms : Nat) (env : JobRunEnv)
    (job : ProcessingJob) : ProcessingJob :=
  let job1 := { job with status := JobStatus.PROCESSING, started_time := claim_time_ms }
  let r := process_job env job1
  let job2 := { job1 with
                  completed_time := claim_time_ms + env.decode_elapsed_ms
                  error_message := r.2 }
  if r.1 then { job2 with status := JobStatus.COMPLETED }
  else { job2 with status := JobStatus.FAILED }

/-- Queue-relevant state of `JobManager` (src/job_manager.h:54-66): the FIFO
and the `jobs_queued_` counter. -/
structure JobManagerState where
  job_queue : List (List Char)
  jobs_queued : Nat
deriving Repr, DecidableEq

/-- `JobManager::queue_job` (src/job_manager.cc:77-132), queue effect: under
the queue mutex, reject (returning the empty id, modelled `none`) when
`job_queue_.size() >= max_queue_size_`, else push and count.  The function
returns immediately in both cases — there is no wait on any condition. -/
def queue_job (max_queue_size : Nat) (s : JobManagerState) (job_id : List Char) :
    Option (List Char) × JobManagerState :=
  if s.job_queue.length ≥ max_queue_size then (none, s)
  else (some job_id, ⟨s.job_queue ++ [job_id], s.jobs_queued + 1⟩)

/-- The dequeue step of `JobManager::worker_thread_main`
(src/job_manager.cc:189-194): pop the front job, if any. -/
def dequeue_job (s : JobManagerState) : Option (List Char) × JobManagerState :=
  match s.job_queue with
  | [] => (none, s)
  | j :: rest => (some j, ⟨rest, s.jobs_queued⟩)

/-- `WorkerPool::enqueue_job` (src/worker_pool.cc:45-64), queue effect: same
capacity check, returning `false` when full. -/
def WorkerPool_enqueue_job (max_queue_size : Nat) (q : List (List Char))
    (job_id : List Char) : Bool × List (List Char) :=
  if q.length ≥ max_queue_size then (false, q)
  else (true, q ++ [job_id])

/-- An interleaving of submissions and worker pops against the job queue. -/
inductive QueueOp
  | enqueue (job_id : List Char)
  | dequeue
deriving Repr, DecidableEq

def run_queue_ops (max_queue_size : Nat) (s : JobManagerState) :
    List QueueOp → JobManagerState
  | [] => s
  | QueueOp.enqueue job_id :: ops =>
      run_queue_ops max_queue_size (queue_job max_queue_size s job_id).2 ops
  | QueueOp.dequeue :: ops =>
      run_queue_ops max_queue_size (dequeue_job s).2 ops

/-- Claim C6 (code-bug evidence).  The worker's handling of a claimed job is
independent of the configured `job_timeout` (the parameter is stored by the
constructor and never read again), and a successful decode that ran longer
than the timeout still ends COMPLETED with its error message untouched —
never FAILED with "timeout". -/
theorem claim_C6_no_timeout_enforcement
    (t1 t2 claim_time : Nat) (env : JobRunEnv) (job : ProcessingJob)
    (hdec : env.decoder_ok = true) (hopen : env.open_ok = true)
    (hdecode : env.decode_ok = true) (hwav : env.wav_exists = true)
    (hlong : t1 < env.decode_elapsed_ms) :
    worker_run_job t1 claim_time env job = worker_run_job t2 claim_time env job ∧
    (worker_run_job t1 claim_time env job).status = JobStatus.COMPLETED ∧
    (worker_run_job t1 claim_time env job).status ≠ JobStatus.FAILED ∧
    (worker_run_job t1 claim_time env job).error_message = job.error_message := by
  refine ⟨rfl, ?_, ?_, ?_⟩ <;>
    simp [worker_run_job, process_job, hdec, hopen, hdecode, hwav]

/-- Witness for C6: a decode taking 60 s against a configured 30 s timeout
completes the job instead of failing it. -/
theorem claim_C6_no_timeout_enforcement_witness :
    worker_run_job 30000 0 ⟨true, true, true, true, 60000⟩ ⟨[], JobStatus.QUEUED, [], 0, 0⟩ =
      worker_run_job 7 0 ⟨true, true, true, true, 60000⟩ ⟨[], JobStatus.QUEUED, [], 0, 0⟩ ∧
    (worker_run_job 30000 0 ⟨true, true, true, true, 60000⟩
      ⟨[], JobStatus.QUEUED, [], 0, 0⟩).status = JobStatus.COMPLETED ∧
    (worker_run_job 30000 0 ⟨true, true, true, true, 60000⟩
      ⟨[], JobStatus.QUEUED, [], 0, 0⟩).status ≠ JobStatus.FAILED ∧
    (worker_run_job 30000 0 ⟨true, true, true, true, 60000⟩
      ⟨[], JobStatus.QUEUED, [], 0, 0⟩).error_message =
      (⟨[], JobStatus.QUEUED, [], 0, 0⟩ : ProcessingJob).error_message :=
  claim_C6_no_timeout_enforcement 30000 7 0 ⟨true, true, true, true, 60000⟩
    ⟨[], JobStatus.QUEUED, [], 0, 0⟩ rfl rfl rfl rfl (by decide)

theorem queue_job_preserves_bound (max_queue_size : Nat) (s : JobManagerState)
    (job_id : List Char) (h : s.job_queue.length ≤ max_queue_size) :
    ((queue_job max_queue_size s job_id).2).job_queue.length ≤ max_queue_size := by
  unfold queue_job
  by_cases hf : s.job_queue.length ≥ max_queue_size
  · rw [if_pos hf]
    exact h
  · rw [if_neg hf]
    simp only [List.length_append, List.length_cons, List.length_nil]
    omega

theorem dequeue_job_len_le (s : JobManagerState) :
    ((dequeue_job s).2).job_queue.length ≤ s.job_queue.length := by
  rcases hq : s.job_queue with _ | ⟨j, rest⟩ <;> simp [dequeue_job, hq]

theorem run_queue_ops_bound (max_queue_size : Nat) :
    ∀ (ops : List QueueOp) (s : JobManagerState),
      s.job_queue.length ≤ max_queue_size →
      (run_queue_ops max_queue_size s ops).job_queue.length ≤ max_queue_size := by
  intro ops
  induction ops with
  | nil => intro s h; exact h
  | cons op ops ih =>
      intro s h
      cases op with
      | enqueue job_id =>
          simp only [run_queue_ops]
          exact ih _ (queue_job_preserves_bound max_queue_size s job_id h)
      | dequeue =>
          simp only [run_queue_ops]
          exact ih _ (Nat.le_trans (dequeue_job_len_le s) h)

/-- Claim C7: across every sequence of enqueue and dequeue operations the
queue depth never exceeds `max_queue_size` (both from any admissible state
and from the initial empty queue), and an enqueue against a full queue is
rejected without adding the job and without blocking — it returns
immediately with the rejection value and the state unchanged, for
`JobManager::queue_job` and `WorkerPool::enqueue_job` alike. -/
theorem claim_C7_queue_never_exceeds_bound (max_queue_size : Nat)
    (s : JobManagerState) (q : List (List Char)) (job_id : List Char)
    (ops : List QueueOp) (hs : s.job_queue.length ≤ max_queue_size) :
    (run_queue_ops max_queue_size s ops).job_queue.length ≤ max_queue_size ∧
    (run_queue_ops max_queue_size ⟨[], 0⟩ ops).job_queue.length ≤ max_queue_size ∧
    (s.job_queue.length ≥ max_queue_size →
      queue_job max_queue_size s job_id = (none, s)) ∧
    (q.length ≥ max_queue_size →
      WorkerPool_enqueue_job max_queue_size q job_id = (false, q)) := by
  refine ⟨run_queue_ops_bound max_queue_size ops s hs,
          run_queue_ops_bound max_queue_size ops ⟨[], 0⟩ (by simp),
          ?_, ?_⟩
  · intro hfull
    unfold queue_job
    rw [if_pos hfull]
  · intro hfull
    unfold WorkerPool_enqueue_job
    rw [if_pos hfull]

/-- Witness for C7: capacity 2, five submissions and one pop; a full-queue
enqueue is rejected and leaves the two-element queue as it is. -/
theorem claim_C7_queue_never_exceeds_bound_witness :
    (run_queue_ops 2 ⟨[['a'], ['b']], 2⟩
      [QueueOp.enqueue ['c'], QueueOp.dequeue,
       QueueOp.enqueue ['d'], QueueOp.enqueue ['e']]).job_queue.length ≤ 2 ∧
    (run_queue_ops 2 ⟨[], 0⟩
      [QueueOp.enqueue ['c'], QueueOp.dequeue,
       QueueOp.enqueue ['d'], QueueOp.enqueue ['e']]).job_queue.length ≤ 2 ∧
    ((⟨[['a'], ['b']], 2⟩ : JobManagerState).job_queue.length ≥ 2 →
      queue_job 2 ⟨[['a'], ['b']], 2⟩ ['c'] = (none, ⟨[['a'], ['b']], 2⟩)) ∧
    ((([['a'], ['b']] : List (List Char)).length ≥ 2 →
      WorkerPool_enqueue_job 2 [['a'], ['b']] ['c'] = (false, [['a'], ['b']]))) :=
  claim_C7_queue_never_exceeds_bound 2 ⟨[['a'], ['b']], 2⟩ [['a'], ['b']] ['c']
    [QueueOp.enqueue ['c'], QueueOp.dequeue,
     QueueOp.enqueue ['d'], QueueOp.enqueue ['e']] (by simp)

/-! ## §9  JSON sidecar (`P25Decoder::generate_json_metadata`)

Strings are `List Char`.  Parameters of the model: `existing` is the content
of a sidecar JSON file found next to the input (`none` when absent; the C++
reads it line by line, re-appending a newline per line), `external` is the
string installed by `set_external_metadata` (empty when unset), `basename`
the computed input-file basename.  Braces inside string literals are written
with \x7b / \x7d escapes. -/

/-- `std::string::rfind` of the closing brace (src/p25_decoder.cc:278,313):
index of the last brace character, if any. -/
def rfindBrace : List Char → Option Nat
  | [] => none
  | c :: cs =>
      match rfindBrace cs with
      | some i => some (i + 1)
      | none => if c = '\x7d' then some 0 else none

/-- The trailing-whitespace pop loop (src/p25_decoder.cc:283-285, 318-320). -/
def trimTrailingWs (s : List Char) : List Char :=
  (s.reverse.dropWhile (fun c => c == ' ' || c == '\n' || c == '\t')).reverse

/-- The conditional separator (src/p25_decoder.cc:288-290, 323-325):
`if (!base_json.empty() && base_json.back() != ',') json << ",\n";` -/
def json_comma (base_json : List Char) : List Char :=
  if base_json ≠ [] ∧ base_json.getLast? ≠ some ',' then ",\n".toList else []

/-- Decoder fields appended in the existing-sidecar branch
(src/p25_decoder.cc:293-299): decoder_source, input_file, p25_frames,
voice_frames, nac, note — and no encrypted field. -/
def json_decoder_fields_existing (md : CallMetadata) (basename : List Char) : List Char :=
  "  \"decoder_source\": \"trunk-decoder\",\n".toList ++
  "  \"input_file\": \"".toList ++ basename ++ "\",\n".toList ++
  "  \"p25_frames\": ".toList ++ (Nat.repr md.total_frames).toList ++ ",\n".toList ++
  "  \"voice_frames\": ".toList ++ (Nat.repr md.voice_frames).toList ++ ",\n".toList ++
  "  \"nac\": ".toList ++ (Nat.repr md.nac).toList ++ ",\n".toList ++
  "  \"note\": \"Enhanced with P25 frame analysis from trunk-decoder\"\n".toList ++
  "\x7d".toList

/-- Decoder fields appended in the external-metadata branch
(src/p25_decoder.cc:327-332): decoder_source, input_file, p25_frames,
voice_frames — and neither nac nor encrypted. -/
def json_decoder_fields_external (md : CallMetadata) (basename : List Char) : List Char :=
  "  \"decoder_source\": \"trunk-decoder\",\n".toList ++
  "  \"input_file\": \"".toList ++ basename ++ "\",\n".toList ++
  "  \"p25_frames\": ".toList ++ (Nat.repr md.total_frames).toList ++ ",\n".toList ++
  "  \"voice_frames\": ".toList ++ (Nat.repr md.voice_frames).toList ++ "\n".toList ++
  "\x7d".toList

/-- The basic object emitted when neither an existing sidecar nor external
metadata is present (src/p25_decoder.cc:339-354). -/
def json_basic_object (md : CallMetadata) (basename : List Char) : List Char :=
  "\x7b\n".toList ++
  "  \"call_length\": ".toList ++ md.call_length ++ ",\n".toList ++
  "  \"audio_type\": \"".toList ++ md.audio_type ++ "\",\n".toList ++
  "  \"nac\": ".toList ++ (Nat.repr md.nac).toList ++ ",\n".toList ++
  "  \"encrypted\": ".toList ++ (if md.has_encrypted_frames then "1".toList else "0".toList) ++ ",\n".toList ++
  "  \"decoder_source\": \"trunk-decoder\",\n".toList ++
  "  \"input_file\": \"".toList ++ basename ++ "\",\n".toList ++
  "  \"p25_frames\": ".toList ++ (Nat.repr md.total_frames).toList ++ ",\n".toList ++
  "  \"voice_frames\": ".toList ++ (Nat.repr md.voice_frames).toList ++ "\n".toList ++
  "\x7d".toList

/-- The `!has_existing_metadata` tail of `generate_json_metadata`
(src/p25_decoder.cc:306-355): splice the decoder fields into nonempty
external metadata before its last brace; external metadata without a brace
produces an empty output (the fallback flag is cleared but the final branch
tests `external_metadata_.empty()`); no external metadata gives the basic
object. -/
def json_merge_external (external : List Char) (md : CallMetadata)
    (basename : List Char) : List Char :=
  if external ≠ [] then
    match rfindBrace external with
    | some i =>
        trimTrailingWs (external.take i) ++
        json_comma (trimTrailingWs (external.take i)) ++
        json_decoder_fields_external md basename
    | none => []
  else json_basic_object md basename

/-- `P25Decoder::generate_json_metadata` (src/p25_decoder.cc:242-358). -/
def generate_json_metadata (existing : Option (List Char)) (external : List Char)
    (md : CallMetadata) (basename : List Char) : List Char :=
  match existing with
  | some existing_content =>
      match rfindBrace existing_content with
      | some i =>
          trimTrailingWs (existing_content.take i) ++
          json_comma (trimTrailingWs (existing_content.take i)) ++
          json_decoder_fields_existing md basename
      | none => json_merge_external external md basename
  | none => json_merge_external external md basename

theorem isInfix_append_right {B L : List Char} (h : B <:+: L) (R : List Char) :
    B <:+: L ++ R := by
  obtain ⟨s, t, rfl⟩ := h
  exact ⟨s, t ++ R, by simp⟩

theorem isInfix_append_left {B L : List Char} (h : B <:+: L) (A : List Char) :
    B <:+: A ++ L := by
  obtain ⟨s, t, rfl⟩ := h
  exact ⟨A ++ s, t, by simp⟩

/-- Claim C9 counterexample: with external metadata `\x7b"foo": 1\x7d`
supplied and no pre-existing sidecar, the generated object contains a
decoder_source key but no "encrypted" and no "nac" key at all — refuting
"always contains ... nac, and encrypted" (and leaving nothing for an
external-wins rule to resolve for those keys). -/
theorem claim_C9_sidecar_counterexample :
    ("\"decoder_source\"".toList <:+:
      generate_json_metadata none "\x7b\"foo\": 1\x7d".toList
        ⟨291, 7, 5, true, "0.50".toList, "digital".toList⟩ "f.p25".toList) ∧
    ¬ ("\"encrypted\"".toList <:+:
      generate_json_metadata none "\x7b\"foo\": 1\x7d".toList
        ⟨291, 7, 5, true, "0.50".toList, "digital".toList⟩ "f.p25".toList) ∧
    ¬ ("\"nac\"".toList <:+:
      generate_json_metadata none "\x7b\"foo\": 1\x7d".toList
        ⟨291, 7, 5, true, "0.50".toList, "digital".toList⟩ "f.p25".toList) := by
  decide

/-- Claim C9, amended.  (A) With neither an existing sidecar nor external
metadata, the object carries decoder_source, input_file, p25_frames,
voice_frames, nac and encrypted.  (B) With external metadata containing a
closing brace, the external text up to that brace (trailing whitespace
trimmed) is preserved verbatim as a prefix of the output — the decoder
fields are appended after it, never overwriting it — and the output carries
decoder_source, input_file, p25_frames and voice_frames (nac and encrypted
are not added).  (C) With an existing sidecar containing a closing brace,
its text is likewise preserved as a prefix, and decoder_source and nac are
among the appended fields. -/
theorem claim_C9_sidecar_fields_amended
    (md : CallMetadata) (bn external e : List Char) (i j : Nat)
    (hext : external ≠ []) (hbr : rfindBrace external = some i)
    (hbre : rfindBrace e = some j) :
    ("\"decoder_source\"".toList <:+: generate_json_metadata none [] md bn ∧
     "\"input_file\"".toList <:+: generate_json_metadata none [] md bn ∧
     "\"p25_frames\"".toList <:+: generate_json_metadata none [] md bn ∧
     "\"voice_frames\"".toList <:+: generate_json_metadata none [] md bn ∧
     "\"nac\"".toList <:+: generate_json_metadata none [] md bn ∧
     "\"encrypted\"".toList <:+: generate_json_metadata none [] md bn) ∧
    (trimTrailingWs (external.take i) <+: generate_json_metadata none external md bn ∧
     "\"decoder_source\"".toList <:+: generate_json_metadata none external md bn ∧
     "\"input_file\"".toList <:+: generate_json_metadata none external md bn ∧
     "\"p25_frames\"".toList <:+: generate_json_metadata none external md bn ∧
     "\"voice_frames\"".toList <:+: generate_json_metadata none external md bn) ∧
    (trimTrailingWs (e.take j) <+: generate_json_metadata (some e) external md bn ∧
     "\"decoder_source\"".toList <:+: generate_json_metadata (some e) external md bn ∧
     "\"nac\"".toList <:+: generate_json_metadata (some e) external md bn) := by
  have hA : generate_json_metadata none [] md bn = json_basic_object md bn := rfl
  have hB : generate_json_metadata none external md bn =
      trimTrailingWs (external.take i) ++ json_comma (trimTrailingWs (external.take i)) ++
      json_decoder_fields_external md bn := by
    simp only [generate_json_metadata, json_merge_external, if_pos hext, hbr]
  have hC : generate_json_metadata (some e) external md bn =
      trimTrailingWs (e.take j) ++ json_comma (trimTrailingWs (e.take j)) ++
      json_decoder_fields_existing md bn := by
    simp only [generate_json_metadata, hbre]
  refine ⟨⟨?_, ?_, ?_, ?_, ?_, ?_⟩, ⟨?_, ?_, ?_, ?_, ?_⟩, ⟨?_, ?_, ?_⟩⟩
  · rw [hA]; simp only [json_basic_object]
    iterate 10 apply isInfix_append_right
    apply isInfix_append_left; decide
  · rw [hA]; simp only [json_basic_object]
    iterate 9 apply isInfix_append_right
    apply isInfix_append_left; decide
  · rw [hA]; simp only [json_basic_object]
    iterate 6 apply isInfix_append_right
    apply isInfix_append_left; decide
  · rw [hA]; simp only [json_basic_object]
    iterate 3 apply isInfix_append_right
    apply isInfix_append_left; decide
  · rw [hA]; simp only [json_basic_object]
    iterate 16 apply isInfix_append_right
    apply isInfix_append_left; decide
  · rw [hA]; simp only [json_basic_object]
    iterate 13 apply isInfix_append_right
    apply isInfix_append_left; decide
  · rw [hB]
    exact List.IsPrefix.trans (List.prefix_append _ _) (List.prefix_append _ _)
  · rw [hB]; apply isInfix_append_left
    simp only [json_decoder_fields_external]
    iterate 10 apply isInfix_append_right
    decide
  · rw [hB]; apply isInfix_append_left
    simp only [json_decoder_fields_external]
    iterate 9 apply isInfix_append_right
    apply isInfix_append_left; decide
  · rw [hB]; apply isInfix_append_left
    simp only [json_decoder_fields_external]
    iterate 6 apply isInfix_append_right
    apply isInfix_append_left; decide
  · rw [hB]; apply isInfix_append_left
    simp only [json_decoder_fields_external]
    iterate 3 apply isInfix_append_right
    apply isInfix_append_left; decide
  · rw [hC]
    exact List.IsPrefix.trans (List.prefix_append _ _) (List.prefix_append _ _)
  · rw [hC]; apply isInfix_append_left
    simp only [json_decoder_fields_existing]
    iterate 14 apply isInfix_append_right
    decide
  · rw [hC]; apply isInfix_append_left
    simp only [json_decoder_fields_existing]
    iterate 4 apply isInfix_append_right
    apply isInfix_append_left; decide

/-- Witness for the amended C9 at concrete inputs: external metadata
`\x7b"a":1\x7d` (last brace at index 7) and an existing sidecar `\x7b\x7d`
followed by a newline (last brace at index 1). -/
theorem claim_C9_sidecar_fields_amended_witness :
    ("\"encrypted\"".toList <:+:
      generate_json_metadata none []
        ⟨1, 2, 3, false, "0.00".toList, "digital".toList⟩ "f.p25".toList) ∧
    (trimTrailingWs ("\x7b\"a\":1\x7d".toList.take 6) <+:
      generate_json_metadata none "\x7b\"a\":1\x7d".toList
        ⟨1, 2, 3, false, "0.00".toList, "digital".toList⟩ "f.p25".toList) ∧
    (trimTrailingWs ("\x7b\x7d\n".toList.take 1) <+:
      generate_json_metadata (some "\x7b\x7d\n".toList) "\x7b\"a\":1\x7d".toList
        ⟨1, 2, 3, false, "0.00".toList, "digital".toList⟩ "f.p25".toList) :=
  ⟨(claim_C9_sidecar_fields_amended ⟨1, 2, 3, false, "0.00".toList, "digital".toList⟩
      "f.p25".toList "\x7b\"a\":1\x7d".toList "\x7b\x7d\n".toList 6 1
      (by decide) (by decide) (by decide)).1.2.2.2.2.2,
   (claim_C9_sidecar_fields_amended ⟨1, 2, 3, false, "0.00".toList, "digital".toList⟩
      "f.p25".toList "\x7b\"a\":1\x7d".toList "\x7b\x7d\n".toList 6 1
      (by decide) (by decide) (by decide)).2.1.1,
   (claim_C9_sidecar_fields_amended ⟨1, 2, 3, false, "0.00".toList, "digital".toList⟩
      "f.p25".toList "\x7b\"a\":1\x7d".toList "\x7b\x7d\n".toList 6 1
      (by decide) (by decide) (by decide)).2.2.1⟩
